import Mathlib

/-!
Verification of the touchHLE object-runtime core: guest/host ABI marshaling of
the CoreGraphics geometry structs (`cg_geometry.rs`), the `NSObject` reference
counting, key-value coding, and deferred-invocation methods (`ns_object.rs`).

Machine values: a `CGFloat` is a 32-bit float whose register marshaling moves
its raw 32-bit pattern; we represent such a value by that pattern, a natural
number (always below 2^32 in the source; the marshaling never computes on it,
so no reduction modulo 2^32 arises). Guest addresses and object handles are
likewise natural numbers.
-/

/- ===================== ABI marshaling (cg_geometry.rs) ===================== -/

/-- Modelled from the spec: scalar register marshaling (`GuestArg for f32` in
`crate::abi`, which is outside the excerpt). A scalar occupies exactly one
register, and the register carries the value's raw 32-bit pattern losslessly. -/
def cgFloatToReg (v : Nat) : Nat := v

/-- Modelled from the spec: the inverse scalar read, one register in. -/
def cgFloatFromReg (r : Nat) : Nat := r

/-- `CGPoint` from `cg_geometry.rs`: fields `x`, `y`, each a `CGFloat`
represented by its 32-bit pattern. -/
structure CGPoint where
  x : Nat
  y : Nat
deriving DecidableEq

/-- `CGSize` from `cg_geometry.rs`: fields `width`, `height`. -/
structure CGSize where
  width : Nat
  height : Nat
deriving DecidableEq

/-- `CGRect` from `cg_geometry.rs`: an origin `CGPoint` then a `CGSize`. -/
structure CGRect where
  origin : CGPoint
  size : CGSize
deriving DecidableEq

/-- `GuestArg for CGPoint`, `to_regs`: `REG_COUNT = 2`; `x` goes to register 0,
`y` to register 1. -/
def CGPoint.to_regs (p : CGPoint) : List Nat := [cgFloatToReg p.x, cgFloatToReg p.y]

/-- `GuestArg for CGPoint`, `from_regs`: `x` is read from `regs[0..1]` and `y`
from `regs[1..2]`; a slice shorter than `REG_COUNT` would be a bounds panic in
the source, modelled as `none`. -/
def CGPoint.from_regs : List Nat → Option CGPoint
  | r0 :: r1 :: _ => some ⟨cgFloatFromReg r0, cgFloatFromReg r1⟩
  | _ => none

/-- `GuestArg for CGSize`, `to_regs`: `width` then `height`. -/
def CGSize.to_regs (s : CGSize) : List Nat := [cgFloatToReg s.width, cgFloatToReg s.height]

/-- `GuestArg for CGSize`, `from_regs`. -/
def CGSize.from_regs : List Nat → Option CGSize
  | r0 :: r1 :: _ => some ⟨cgFloatFromReg r0, cgFloatFromReg r1⟩
  | _ => none

/-- `GuestArg for CGRect`, `to_regs`: `REG_COUNT = 4`; the origin point fills
`regs[0..2]` and the size fills `regs[2..4]`, in that order. -/
def CGRect.to_regs (r : CGRect) : List Nat := r.origin.to_regs ++ r.size.to_regs

/-- `GuestArg for CGRect`, `from_regs`: the origin is recomposed from
`regs[0..2]` and the size from `regs[2..4]`. -/
def CGRect.from_regs (regs : List Nat) : Option CGRect :=
  match CGPoint.from_regs (regs.take 2), CGSize.from_regs (regs.drop 2) with
  | some o, some s => some ⟨o, s⟩
  | _, _ => none

/- ============== Reference counting (ns_object.rs + crate::objc) ============== -/

/-- The lifecycle state of one object: `entry` is its refcount-table entry
(`none` once the object has been deallocated and removed), and `deallocs`
counts how many times `dealloc` has been dispatched to it. -/
structure ObjLife where
  entry : Option Nat
  deallocs : Nat
deriving DecidableEq

/-- Modelled from the spec: `alloc_object` (in `crate::objc`, outside the
excerpt, reached from `allocWithZone:`) seeds the refcount as if one logical
owner already holds the new object; no `dealloc` has run. -/
def allocLife : ObjLife := ⟨some 1, 0⟩

/-- The instance method `retain` from `ns_object.rs`: it calls
`increment_refcount` (modelled from the spec: increments the table entry).
Retaining an untracked handle is a fatal error, modelled as `none`. -/
def retainOp : ObjLife → Option ObjLife
  | ⟨some c, d⟩ => some ⟨some (c + 1), d⟩
  | ⟨none, _⟩ => none

/-- The instance method `release` from `ns_object.rs`: it calls
`decrement_refcount` (modelled from the spec: decrements the entry and reports
whether any owner remains) and, exactly when the decrement reports that no
owner remains, dispatches `dealloc` — which removes the table entry. Releasing
an untracked handle is a fatal error, modelled as `none`. -/
def releaseOp : ObjLife → Option ObjLife
  | ⟨some (c + 1), d⟩ => if c = 0 then some ⟨none, d + 1⟩ else some ⟨some c, d⟩
  | ⟨some 0, _⟩ => none
  | ⟨none, _⟩ => none

/-- Apply a refcount operation `n` times in sequence, stopping at a fatal
error. -/
def applyN (f : ObjLife → Option ObjLife) : Nat → ObjLife → Option ObjLife
  | 0, s => some s
  | n + 1, s => (f s).bind (applyN f n)

/- ============== Class table and key-value coding (ns_object.rs) ============== -/

/-- Modelled from the spec: one entry of the class table (`crate::objc`,
outside the excerpt) — the class name, the selectors it itself implements, its
own ivars (name to byte offset within instances), and, when the class overrides
the `accessInstanceVariablesDirectly` class method, that override's answer. -/
structure ClassInfo where
  name : String
  methods : List String
  ivars : List (String × Nat)
  accessOverride : Option Bool
deriving DecidableEq

/-- Modelled from the spec: a class together with its superclass chain, which
is acyclic by construction and rooted at the universal base (`NSObject`). -/
inductive ClassChain where
  | root (info : ClassInfo)
  | child (info : ClassInfo) (sup : ClassChain)
deriving DecidableEq

/-- Modelled from the spec: `class_has_method` walks from the class up through
superclasses until a match or the root is exceeded. -/
def classHasMethod : ClassChain → String → Bool
  | .root i, s => i.methods.contains s
  | .child i sup, s => i.methods.contains s || classHasMethod sup s

/-- Lookup of an ivar name in one class's own ivar list. -/
def ivarLookup (l : List (String × Nat)) (s : String) : Option Nat :=
  match l.find? (fun p => p.1 == s) with
  | some p => some p.2
  | none => none

/-- Modelled from the spec: `class_has_ivar` walks the hierarchy the same way
method lookup does, returning the nearest (most-derived) definition's offset. -/
def classHasIvar : ClassChain → String → Option Nat
  | .root i, s => ivarLookup i.ivars s
  | .child i sup, s =>
      match ivarLookup i.ivars s with
      | some off => some off
      | none => classHasIvar sup s

/-- Modelled from the spec: dispatching the `accessInstanceVariablesDirectly`
class method resolves most-derived-first; the root `NSObject` implementation
(`ns_object.rs` line 74) answers true. -/
def accessIvarsDirectly : ClassChain → Bool
  | .root i => i.accessOverride.getD true
  | .child i sup =>
      match i.accessOverride with
      | some b => b
      | none => accessIvarsDirectly sup

/-- Modelled from the spec: method resolution returns the most-derived class
that implements the selector (the class whose implementation dispatch runs). -/
def resolveMethodOwner : ClassChain → String → Option String
  | .root i, s => if i.methods.contains s then some i.name else none
  | .child i sup, s => if i.methods.contains s then some i.name else resolveMethodOwner sup s

/-- The runtime context `setValue:forKey:` runs in: the registered selector
names (interning table), the receiver's class chain, and the receiver's base
address in guest memory (`this.to_bits()`). -/
structure KvcEnv where
  registeredSels : List String
  cls : ClassChain
  base : Nat
deriving DecidableEq

/-- Modelled from the spec: `lookup_selector` returns the interned selector for
a registered name and `none` for names never declared by any loaded class;
equality of selectors is by interned name. -/
def lookupSelector (env : KvcEnv) (name : String) : Option String :=
  if env.registeredSels.contains name then some name else none

/-- One accessor try of `setValue:forKey:`: look the name up as a selector and,
if registered, test `class_has_method` on the receiver's class. -/
def tryAccessor (env : KvcEnv) (name : String) : Option String :=
  match lookupSelector env name with
  | some sel => if classHasMethod env.cls sel then some sel else none
  | none => none

/-- One ivar try of `setValue:forKey:`: look the name up as a selector and, if
registered, test `class_has_ivar`; on a hit the write address is the instance
base plus the ivar's offset. -/
def tryIvar (env : KvcEnv) (name : String) : Option (String × Nat) :=
  match lookupSelector env name with
  | some sel =>
      match classHasIvar env.cls sel with
      | some off => some (sel, env.base + off)
      | none => none
  | none => none

/-- Rust `u8::is_ascii` on a character of the key (the key is checked
byte-by-byte; under the ASCII assertion bytes and characters coincide). -/
def isAsciiChar (c : Char) : Bool := c.toNat < 128

/-- Rust `u8::to_ascii_uppercase` on the key's first byte. -/
def asciiUpper (c : Char) : Char :=
  if 97 ≤ c.toNat && c.toNat ≤ 122 then Char.ofNat (c.toNat - 32) else c

/-- The observable outcome of one `setValue:forKey:` call. -/
inductive KvcOutcome where
  | fatalNonAsciiKey
  | fatalKeyIndexOutOfBounds
  | sentMessage (sel : String)
  | wroteIvar (ivarName : String) (addr : Nat)
  | undefinedKeyHandler
deriving DecidableEq

/-- `setValue:forKey:` from `ns_object.rs` lines 145–245: assert the key is
ASCII; build `set<Key>:` then `_set<Key>:` (first byte upper-cased) and send
the first one the class implements; else, if the class answers yes to
`accessInstanceVariablesDirectly`, try the ivar names `_<key>`, `_is<Key>:`,
`<key>`, `is<Key>:` exactly as the source's format strings build them (note
the trailing colon the source appends on the `_is`/`is` forms) and write at
base plus offset on the first hit; else dispatch `setValue:forUndefinedKey:`.
Indexing byte 0 of an empty key is a bounds panic, before any lookup. -/
def setValueForKey (env : KvcEnv) (key : String) : KvcOutcome :=
  if ¬ (key.data.all isAsciiChar) then .fatalNonAsciiKey
  else
    match key.data with
    | [] => .fatalKeyIndexOutOfBounds
    | c :: rest =>
      let keyCap : String := ⟨asciiUpper c :: rest⟩
      match tryAccessor env ("set" ++ keyCap ++ ":") with
      | some sel => .sentMessage sel
      | none =>
        match tryAccessor env ("_set" ++ keyCap ++ ":") with
        | some sel => .sentMessage sel
        | none =>
          if accessIvarsDirectly env.cls then
            match tryIvar env ("_" ++ key) with
            | some hit => .wroteIvar hit.1 hit.2
            | none =>
              match tryIvar env ("_is" ++ keyCap ++ ":") with
              | some hit => .wroteIvar hit.1 hit.2
              | none =>
                match tryIvar env key with
                | some hit => .wroteIvar hit.1 hit.2
                | none =>
                  match tryIvar env ("is" ++ keyCap ++ ":") with
                  | some hit => .wroteIvar hit.1 hit.2
                  | none => .undefinedKeyHandler
          else .undefinedKeyHandler

/-- The diagnostic text of the default `setValue:forUndefinedKey:` handler
(`ns_object.rs` lines 247–254), as its character sequence: the receiver's
debug form, the class name and handle, the key (string form and handle), and
the class's available selectors joined by a comma and a space. -/
def undefinedKeyMessage (receiverDesc clsName clsDesc keyStr keyDesc : String)
    (sels : List String) : List Char :=
  ("Object ").data ++ receiverDesc.data ++ (" of class ").data ++ clsName.data ++
    (" (").data ++ clsDesc.data ++ (") does not have a setter for ").data ++
    keyStr.data ++ (" (").data ++ keyDesc.data ++
    (")\nAvailable selectors: ").data ++ (String.intercalate ", " sels).data

/-- The result of a handler that terminates the emulation with a message. -/
inductive FatalOrHandled where
  | fatalMsg (msg : List Char)
deriving DecidableEq

/-- The default `setValue:forUndefinedKey:` implementation: unconditionally
fatal, with the diagnostic above. -/
def setValueForUndefinedKeyDefault (receiverDesc clsName clsDesc keyStr keyDesc : String)
    (sels : List String) : FatalOrHandled :=
  .fatalMsg (undefinedKeyMessage receiverDesc clsName clsDesc keyStr keyDesc sels)

/-- The root `NSObject` entry as registered by `ns_object.rs`: it implements
`accessInstanceVariablesDirectly` (answering true) and the default
`setValue:forUndefinedKey:`; it declares no ivars. -/
def nsObjectInfo : ClassInfo :=
  ⟨"NSObject",
   ["accessInstanceVariablesDirectly", "setValue:forKey:", "setValue:forUndefinedKey:"],
   [], some true⟩

/-- A guest class with no `setFoo:`/`_setFoo:` accessor, no override of
`accessInstanceVariablesDirectly`, and a single ivar named `isFoo` at offset 4
— one of the four ivar names the key-value search is documented to try for the
key `foo`. -/
def classWithIsFooIvar : ClassInfo := ⟨"C", [], [("isFoo", 4)], none⟩

/-- The selector names registered in the scenarios below: every candidate name
the search could build for the key `foo` is registered, so interning is never
the reason a lookup misses. -/
def fooSelectors : List String :=
  ["setFoo:", "_setFoo:", "_foo", "_isFoo:", "foo", "isFoo:", "isFoo",
   "accessInstanceVariablesDirectly", "setValue:forKey:", "setValue:forUndefinedKey:"]

/-- Scenario: receiver of class `C` (ivar `isFoo`), instance base 100. -/
def envIsFoo : KvcEnv :=
  ⟨fooSelectors, .child classWithIsFooIvar (.root nsObjectInfo), 100⟩

/-- A guest class identical to `C` except its ivar is literally named
`isFoo:`, with a trailing colon. -/
def classWithColonIvar : ClassInfo := ⟨"C2", [], [("isFoo:", 4)], none⟩

/-- Scenario: receiver of class `C2` (ivar `isFoo:`), instance base 100. -/
def envColonIvar : KvcEnv :=
  ⟨fooSelectors, .child classWithColonIvar (.root nsObjectInfo), 100⟩

/- ========== Class-level refcount methods (ns_object.rs lines 52–60) ========== -/

/-- Modelled from the spec: the process-wide refcount table, handle to count.
Only its identity matters below: the class-level methods never consult it. -/
structure RefcountTable where
  counts : List (Nat × Nat)
deriving DecidableEq

/-- `+retain` (line 52): body is `this` — the class handle is returned and the
refcount table is untouched; the method's declared return type is `id`, so the
returned value is `some` handle. -/
def classRetain (st : RefcountTable) (cls : Nat) : RefcountTable × Option Nat :=
  (st, some cls)

/-- `+release` (line 55): empty body with declared return `()` — no value is
returned (`none`) and the refcount table is untouched. -/
def classRelease (st : RefcountTable) (_cls : Nat) : RefcountTable × Option Nat :=
  (st, none)

/-- `+autorelease` (line 58): empty body with declared return `()` — no value
is returned (`none`) and the refcount table is untouched. -/
def classAutorelease (st : RefcountTable) (_cls : Nat) : RefcountTable × Option Nat :=
  (st, none)

/- ============ Deferred invocation bridge (ns_object.rs lines 279–322) ============ -/

/-- A value stored in the keyed payload dictionary: an `NSString` (holding a
selector name) or a plain object handle. -/
inductive PerfVal where
  | str (s : String)
  | obj (o : Nat)
deriving DecidableEq

/-- Modelled from the spec: the one-shot timer built by
`timerWithTimeInterval:target:selector:userInfo:repeats:` and handed to
`addTimer:forMode:` (`NSTimer`/`NSRunLoop` are outside the excerpt): its
target, the selector it fires, its keyed payload, whether it repeats, and the
run loop and mode it was scheduled under. -/
structure ScheduledTimer where
  target : Nat
  selector : String
  userInfo : List (String × PerfVal)
  repeats : Bool
  runLoop : String
  mode : String
deriving DecidableEq

/-- Modelled from the spec: the run loop's default mode identifier
(`NSDefaultRunLoopMode`, defined in `ns_run_loop.rs`, outside the excerpt). -/
def nsDefaultRunLoopMode : String := "NSDefaultRunLoopMode"

/-- The observable outcome of `performSelectorOnMainThread:withObject:waitUntilDone:`. -/
inductive PerformOutcome where
  | fatalWrongThread
  | fatalWaitUnsupported
  | scheduled (t : ScheduledTimer)
deriving DecidableEq

/-- `performSelectorOnMainThread:withObject:waitUntilDone:` from `ns_object.rs`
lines 285–308: assert the current thread is not the main thread (0), assert
`wait` is false, package the selector name under key "SEL" and the argument
under key "arg" into a dictionary, build a non-repeating timer firing
`timerFireMethod:` at the receiver with that payload, and add it to the main
run loop under the default mode. -/
def performSelectorOnMainThread (currentThread receiver : Nat) (sel : String)
    (arg : Nat) (wait : Bool) : PerformOutcome :=
  if currentThread = 0 then .fatalWrongThread
  else if wait then .fatalWaitUnsupported
  else .scheduled ⟨receiver, "timerFireMethod:",
    [("SEL", .str sel), ("arg", .obj arg)], false, "main", nsDefaultRunLoopMode⟩

/-- Modelled from the spec: `NSDictionary` `objectForKey:` on a payload built
by `dict_from_keys_and_objects` — association lookup by key. -/
def objectForKey (d : List (String × PerfVal)) (k : String) : Option PerfVal :=
  match d.find? (fun p => p.1 == k) with
  | some p => some p.2
  | none => none

/-- A dispatched message: receiver, selector, one object argument. -/
structure Msg where
  receiver : Nat
  selector : String
  arg : Nat
deriving DecidableEq

/-- `timerFireMethod:` from `ns_object.rs` lines 310–322: read the firing
timer's payload, extract the string under "SEL", re-intern it as a selector,
extract the object under "arg", and dispatch that selector to the receiver
with that argument. A missing or non-string "SEL" entry is an unwrap failure,
modelled as `none`. -/
def timerFireMethod (receiver : Nat) (timer : ScheduledTimer) : Option Msg :=
  match objectForKey timer.userInfo "SEL", objectForKey timer.userInfo "arg" with
  | some (.str s), some (.obj a) => some ⟨receiver, s, a⟩
  | _, _ => none

/-- The runtime state the stub deferred-invocation entry points could touch:
the scheduled timers and the refcount table. -/
structure DeferredState where
  scheduledTimers : List ScheduledTimer
  refcounts : RefcountTable
deriving DecidableEq

/-- `performSelector:withObject:afterDelay:` from `ns_object.rs` lines
279–283: the body is empty — nothing is dispatched (no messages), nothing is
scheduled, and no state is mutated. -/
def performSelectorAfterDelay (st : DeferredState) (_receiver : Nat) (_sel : String)
    (_arg _delay : Nat) : DeferredState × List Msg :=
  (st, [])

/-- `+cancelPreviousPerformRequestsWithTarget:` from `ns_object.rs` lines
70–72: the body is empty — nothing is cancelled, dispatched, or mutated. -/
def cancelPreviousPerformRequestsWithTarget (st : DeferredState) (_target : Nat) :
    DeferredState × List Msg :=
  (st, [])

/- ============= Textual struct grammar (cg_geometry.rs, FromStr) ============= -/

/-- The opening brace character of the struct grammar. -/
def lbrace : Char := '\x7b'

/-- The closing brace character of the struct grammar. -/
def rbrace : Char := '\x7d'

/-- Rust `str::strip_prefix` over character lists: remove the pattern from
the front, or fail. -/
def stripPre : List Char → List Char → Option (List Char)
  | [], s => some s
  | _ :: _, [] => none
  | p :: ps, c :: cs => if c = p then stripPre ps cs else none

/-- Rust `str::strip_suffix` over character lists: remove the pattern from
the back, or fail. -/
def stripSuf (pat s : List Char) : Option (List Char) :=
  (stripPre pat.reverse s.reverse).map List.reverse

/-- Rust `str::split_once` over character lists: split around the first
occurrence of the pattern, or fail when it does not occur. -/
def splitOnce (pat : List Char) : List Char → Option (List Char × List Char)
  | [] => (stripPre pat []).map (fun r => ([], r))
  | c :: cs =>
      match stripPre pat (c :: cs) with
      | some r => some ([], r)
      | none => (splitOnce pat cs).map (fun ab => (c :: ab.1, ab.2))

/-- A decimal digit. -/
def isDigitCh (c : Char) : Bool := 48 ≤ c.toNat && c.toNat ≤ 57

/-- ASCII lower-casing of one character, for the case-insensitive special
float words. -/
def lowerCh (c : Char) : Char :=
  if 65 ≤ c.toNat && c.toNat ≤ 90 then Char.ofNat (c.toNat + 32) else c

/-- One optional leading sign, stripped. -/
def stripSign : List Char → List Char
  | '+' :: cs => cs
  | '-' :: cs => cs
  | cs => cs

/-- `Sign? Digit+`, the payload of an exponent. -/
def signedDigits (cs : List Char) : Bool :=
  let t := stripSign cs
  !t.isEmpty && t.all isDigitCh

/-- `Exp?`: nothing, or `('e' | 'E') Sign? Digit+`. -/
def expTail : List Char → Bool
  | [] => true
  | c :: cs => (c == 'e' || c == 'E') && signedDigits cs

/-- `Number ::= Digit+ '.' Digit* Exp? | '.' Digit+ Exp? | Digit+ Exp?`. -/
def numberBody (cs : List Char) : Bool :=
  let intPart := cs.takeWhile isDigitCh
  let rest := cs.dropWhile isDigitCh
  match rest with
  | [] => !intPart.isEmpty
  | '.' :: rest2 =>
      let fracPart := rest2.takeWhile isDigitCh
      let rest3 := rest2.dropWhile isDigitCh
      (!intPart.isEmpty || !fracPart.isEmpty) && expTail rest3
  | _ => !intPart.isEmpty && expTail rest

/-- Modelled from Rust std's documented `f32` `FromStr` grammar (the `parse`
calls in `parse_tuple` and the rect parser):
`Float ::= Sign? ( 'inf' | 'infinity' | 'nan' | Number )`, the special words
case-insensitive. Only acceptance of the field text is modelled here; which
floating-point value an accepted field denotes is a decimal-to-float
conversion outside this embedding's scope. -/
def floatAccepts (cs : List Char) : Bool :=
  let body := stripSign cs
  let low := body.map lowerCh
  low == ("inf").data || low == ("infinity").data || low == ("nan").data ||
    numberBody body

/-- `parse_tuple` from `cg_geometry.rs`: split at the first comma-space, then
parse both halves as floats. The accepted field texts are returned in place of
their converted values. -/
def parse_tuple (s : List Char) : Option (List Char × List Char) :=
  match splitOnce ((", ").data) s with
  | some (a, b) => if floatAccepts a && floatAccepts b then some (a, b) else none
  | none => none

/-- `FromStr for CGPoint` from `cg_geometry.rs`: strip one leading and one
trailing brace, then `parse_tuple` the inside. -/
def pointFromStr (s : List Char) : Option (List Char × List Char) :=
  match stripPre [lbrace] s with
  | none => none
  | some t =>
      match stripSuf [rbrace] t with
      | none => none
      | some u => parse_tuple u

/-- `FromStr for CGSize` from `cg_geometry.rs`: identical structure to the
point parser. -/
def sizeFromStr (s : List Char) : Option (List Char × List Char) :=
  match stripPre [lbrace] s with
  | none => none
  | some t =>
      match stripSuf [rbrace] t with
      | none => none
      | some u => parse_tuple u

/-- The rect parser's interior separator, the closing-brace comma space
opening-brace between the two nested pairs. -/
def rectSep : List Char := [rbrace, ',', ' ', lbrace]

/-- `FromStr for CGRect` from `cg_geometry.rs`: strip two leading and two
trailing braces, split at the first interior separator, then `parse_tuple`
each half. -/
def rectFromStr (s : List Char) :
    Option ((List Char × List Char) × (List Char × List Char)) :=
  match stripPre [lbrace, lbrace] s with
  | none => none
  | some t =>
      match stripSuf [rbrace, rbrace] t with
      | none => none
      | some u =>
          match splitOnce rectSep u with
          | none => none
          | some (a, b) =>
              match parse_tuple a, parse_tuple b with
              | some xy, some wh => some (xy, wh)
              | _, _ => none

/-- The exact textual grammar of a point or size: an opening brace, a float
field, exactly one comma-space separator, a float field, a closing brace —
nothing else, no surrounding whitespace. -/
def wellFormedPair (s : List Char) : Prop :=
  ∃ a b, floatAccepts a = true ∧ floatAccepts b = true ∧
    s = [lbrace] ++ a ++ (", ").data ++ b ++ [rbrace]

/-- The exact textual grammar of a rectangle: a brace-enclosed pair of
brace-enclosed float pairs with exactly one comma-space separator at each
nesting level and nothing else. -/
def wellFormedRect (s : List Char) : Prop :=
  ∃ a1 a2 b1 b2, floatAccepts a1 = true ∧ floatAccepts a2 = true ∧
    floatAccepts b1 = true ∧ floatAccepts b2 = true ∧
    s = [lbrace, lbrace] ++ a1 ++ (", ").data ++ a2 ++ rectSep ++
      b1 ++ (", ").data ++ b2 ++ [rbrace, rbrace]

/- ===================== helper lemmas ===================== -/

theorem applyN_retainOp (n c d : Nat) :
    applyN retainOp n ⟨some c, d⟩ = some ⟨some (c + n), d⟩ := by
  induction n generalizing c with
  | zero => rfl
  | succ m ih =>
      show (retainOp ⟨some c, d⟩).bind (applyN retainOp m) = _
      rw [retainOp]
      show applyN retainOp m ⟨some (c + 1), d⟩ = _
      rw [ih]
      have : c + 1 + m = c + (m + 1) := by omega
      rw [this]

theorem applyN_releaseOp_partial (n k d : Nat) :
    applyN releaseOp n ⟨some (n + k + 1), d⟩ = some ⟨some (k + 1), d⟩ := by
  induction n generalizing k with
  | zero => simp [applyN]
  | succ m ih =>
      show (releaseOp ⟨some (m + 1 + k + 1), d⟩).bind (applyN releaseOp m) = _
      have h1 : m + 1 + k + 1 = (m + k + 1) + 1 := by omega
      rw [h1, releaseOp]
      have h2 : ¬ (m + k + 1 = 0) := by omega
      rw [if_neg h2]
      show applyN releaseOp m ⟨some (m + k + 1), d⟩ = _
      exact ih k

theorem applyN_releaseOp_full (n d : Nat) :
    applyN releaseOp (n + 1) ⟨some (n + 1), d⟩ = some ⟨none, d + 1⟩ := by
  induction n with
  | zero => simp [applyN, releaseOp]
  | succ m ih =>
      show (releaseOp ⟨some (m + 1 + 1), d⟩).bind (applyN releaseOp (m + 1)) = _
      rw [releaseOp]
      rw [if_neg (by omega : ¬ (m + 1 = 0))]
      show applyN releaseOp (m + 1) ⟨some (m + 1), d⟩ = _
      exact ih

theorem chunkBetween (a x b : List Char) : ∃ p q, a ++ x ++ b = p ++ x ++ q := ⟨a, b, rfl⟩

/- ===================== claim theorems ===================== -/

/-- C3: for every representable `CGPoint`, `CGSize` and `CGRect` value,
decomposing into registers with `to_regs` and recomposing with `from_regs`
yields the value unchanged; a point occupies exactly 2 registers, a size
exactly 2, and a rectangle exactly 4, with the origin point in the first two
registers and the size in the last two. -/
theorem c3_register_round_trip :
    (∀ p : CGPoint, p.to_regs.length = 2 ∧ CGPoint.from_regs p.to_regs = some p) ∧
    (∀ s : CGSize, s.to_regs.length = 2 ∧ CGSize.from_regs s.to_regs = some s) ∧
    (∀ r : CGRect, r.to_regs.length = 4 ∧ CGRect.from_regs r.to_regs = some r ∧
      r.to_regs.take 2 = r.origin.to_regs ∧ r.to_regs.drop 2 = r.size.to_regs) := by
  refine ⟨fun p => ?_, fun s => ?_, fun r => ?_⟩
  · cases p
    simp [CGPoint.to_regs, CGPoint.from_regs, cgFloatToReg, cgFloatFromReg]
  · cases s
    simp [CGSize.to_regs, CGSize.from_regs, cgFloatToReg, cgFloatFromReg]
  · obtain ⟨⟨x, y⟩, ⟨w, h⟩⟩ := r
    simp [CGRect.to_regs, CGRect.from_regs, CGPoint.to_regs, CGSize.to_regs,
      CGPoint.from_regs, CGSize.from_regs, cgFloatToReg, cgFloatFromReg]

/-- C2: an object created by `allocWithZone:` starts with one logical owner;
after `N` retains followed by `N` releases the entry still holds one owner and
`dealloc` has never been dispatched (the third conjunct shows no intermediate
prefix of releases dispatches it either); the `(N+1)`-th release dispatches
`dealloc` exactly once and removes the entry. The fourth conjunct is the
dispatch condition itself: a release dispatches `dealloc` exactly when the
decrement reports that no owners remain; the fifth: releasing an untracked
handle is fatal rather than a second `dealloc`. -/
theorem c2_refcount_invariant :
    (∀ N, (applyN retainOp N allocLife).bind (applyN releaseOp N) = some ⟨some 1, 0⟩) ∧
    (∀ N, (applyN retainOp N allocLife).bind (applyN releaseOp (N + 1)) = some ⟨none, 1⟩) ∧
    (∀ n k d, applyN releaseOp n ⟨some (n + k + 1), d⟩ = some ⟨some (k + 1), d⟩) ∧
    (∀ c d, releaseOp ⟨some (c + 1), d⟩ =
      if c = 0 then some ⟨none, d + 1⟩ else some ⟨some c, d⟩) ∧
    (∀ d, releaseOp ⟨none, d⟩ = none) := by
  refine ⟨fun N => ?_, fun N => ?_, applyN_releaseOp_partial, fun c d => rfl, fun d => rfl⟩
  · rw [allocLife, applyN_retainOp]
    show applyN releaseOp N ⟨some (1 + N), 0⟩ = _
    have h : 1 + N = N + 0 + 1 := by omega
    rw [h]
    exact applyN_releaseOp_partial N 0 0
  · rw [allocLife, applyN_retainOp]
    show applyN releaseOp (N + 1) ⟨some (1 + N), 0⟩ = _
    have h : 1 + N = N + 1 := by omega
    rw [h]
    exact applyN_releaseOp_full N 0

/-- C1 (code bug): the `setValue:forKey:` ivar search tries the selector-style
names `_is<Key>:` and `is<Key>:` with a trailing colon where the claim, the
source's own comment (lines 176–179) and the referenced Apple KVC document
say the ivar names `_is<Key>` and `is<Key>`. Concretely for key `foo`: the
receiver's class allows direct ivar access, implements neither `setFoo:` nor
`_setFoo:`, and has the ivar `isFoo` (offset 4), yet the search falls through
to the undefined-key handler instead of writing at base + 4; a class whose
ivar is literally named `isFoo:` does get the direct write, showing the
colon-bearing name is what the code searches. -/
theorem c1_kvc_ivar_search_appends_colons :
    accessIvarsDirectly envIsFoo.cls = true ∧
    classHasIvar envIsFoo.cls "isFoo" = some 4 ∧
    classHasMethod envIsFoo.cls "setFoo:" = false ∧
    classHasMethod envIsFoo.cls "_setFoo:" = false ∧
    setValueForKey envIsFoo "foo" = .undefinedKeyHandler ∧
    setValueForKey envColonIvar "foo" = .wroteIvar "isFoo:" 104 := by
  exact ⟨by decide, by decide, by decide, by decide, by decide, by decide⟩

/-- C9: calling `setValue:forKey:` with an empty key passes the ASCII
assertion (the empty string is ASCII) and then fails fast with an
out-of-bounds byte-index panic while building the very first candidate
accessor name, before any selector lookup, accessor send, or ivar search —
whatever the receiver's class, selectors, or ivars are. -/
theorem c9_empty_key_panics_before_search :
    ∀ env : KvcEnv, ("" : String).data.all isAsciiChar = true ∧
      setValueForKey env "" = .fatalKeyIndexOutOfBounds := by
  intro env
  exact ⟨rfl, rfl⟩

/-- C8: the default `setValue:forUndefinedKey:` handler is fatal, and its
diagnostic reports the receiver, the receiver's class (name and handle), the
key, and the selectors the class responds to; and a subclass implementing
`setValue:forUndefinedKey:` is the one method resolution selects, so the
default can be overridden with custom behavior instead of failing. -/
theorem c8_undefined_key_default_fatal_and_overridable :
    (∀ receiverDesc clsName clsDesc keyStr keyDesc : String, ∀ sels : List String,
      ∃ msg, setValueForUndefinedKeyDefault receiverDesc clsName clsDesc keyStr keyDesc sels
          = .fatalMsg msg ∧
        (∃ p q, msg = p ++ receiverDesc.data ++ q) ∧
        (∃ p q, msg = p ++ clsName.data ++ q) ∧
        (∃ p q, msg = p ++ clsDesc.data ++ q) ∧
        (∃ p q, msg = p ++ keyStr.data ++ q) ∧
        (∃ p q, msg = p ++ (String.intercalate ", " sels).data ++ q)) ∧
    (∀ (i : ClassInfo) (sup : ClassChain) (s : String),
      i.methods.contains s = true →
        resolveMethodOwner (.child i sup) s = some i.name) := by
  constructor
  · intro r c cd k kd sels
    refine ⟨undefinedKeyMessage r c cd k kd sels, rfl, ?_, ?_, ?_, ?_, ?_⟩
    · exact ⟨("Object ").data,
        (" of class ").data ++ c.data ++ (" (").data ++ cd.data ++
          (") does not have a setter for ").data ++ k.data ++ (" (").data ++
          kd.data ++ (")\nAvailable selectors: ").data ++ (String.intercalate ", " sels).data,
        by simp [undefinedKeyMessage]⟩
    · exact ⟨("Object ").data ++ r.data ++ (" of class ").data,
        (" (").data ++ cd.data ++ (") does not have a setter for ").data ++ k.data ++
          (" (").data ++ kd.data ++ (")\nAvailable selectors: ").data ++
          (String.intercalate ", " sels).data,
        by simp [undefinedKeyMessage]⟩
    · exact ⟨("Object ").data ++ r.data ++ (" of class ").data ++ c.data ++ (" (").data,
        (") does not have a setter for ").data ++ k.data ++ (" (").data ++ kd.data ++
          (")\nAvailable selectors: ").data ++ (String.intercalate ", " sels).data,
        by simp [undefinedKeyMessage]⟩
    · exact ⟨("Object ").data ++ r.data ++ (" of class ").data ++ c.data ++ (" (").data ++
          cd.data ++ (") does not have a setter for ").data,
        (" (").data ++ kd.data ++ (")\nAvailable selectors: ").data ++
          (String.intercalate ", " sels).data,
        by simp [undefinedKeyMessage]⟩
    · exact ⟨("Object ").data ++ r.data ++ (" of class ").data ++ c.data ++ (" (").data ++
          cd.data ++ (") does not have a setter for ").data ++ k.data ++ (" (").data ++
          kd.data ++ (")\nAvailable selectors: ").data,
        [], by simp [undefinedKeyMessage]⟩
  · intro i sup s h
    show (if i.methods.contains s then some i.name else resolveMethodOwner sup s) = some i.name
    rw [h]
    simp

/-- Witness for C8: a concrete subclass implementing
`setValue:forUndefinedKey:` is selected by resolution over the `NSObject`
default. -/
theorem c8_undefined_key_default_fatal_and_overridable_witness :
    resolveMethodOwner
      (.child ⟨"Sub", ["setValue:forUndefinedKey:"], [], none⟩ (.root nsObjectInfo))
      "setValue:forUndefinedKey:" = some "Sub" :=
  c8_undefined_key_default_fatal_and_overridable.2
    ⟨"Sub", ["setValue:forUndefinedKey:"], [], none⟩ (.root nsObjectInfo)
    "setValue:forUndefinedKey:" (by decide)

/-- C7 counterexample: the claim says retain, release and autorelease sent to
a class all return the class handle unchanged, but `+autorelease` is declared
void (`(())`) and returns no value — at class handle 7 its result is not the
handle. -/
theorem c7_counterexample_autorelease_returns_void :
    (classAutorelease ⟨[]⟩ 7).2 ≠ some 7 := by
  decide

/-- C7 (amended): retain, release and autorelease sent to a class handle are
no-ops that leave the refcount table untouched; `+retain` returns the class
handle unchanged, while `+release` and `+autorelease` return no value. -/
theorem c7_class_refcount_noops :
    ∀ (st : RefcountTable) (cls : Nat),
      classRetain st cls = (st, some cls) ∧
      classRelease st cls = (st, none) ∧
      classAutorelease st cls = (st, none) := by
  intro st cls
  exact ⟨rfl, rfl, rfl⟩

/-- C6: for every receiver, selector and argument (from any non-main thread,
the context the source asserts), requesting `waitUntilDone:true` is fatal;
with `wait = false` the call is packaged as a keyed payload (selector name
under "SEL", argument under "arg") on a non-repeating one-shot timer scheduled
on the main run loop under its default mode, and firing `timerFireMethod:` on
that timer extracts exactly that selector and argument and dispatches them to
the original receiver. -/
theorem c6_perform_on_main_thread (currentThread receiver : Nat) (sel : String)
    (arg : Nat) (h : currentThread ≠ 0) :
    performSelectorOnMainThread currentThread receiver sel arg true
      = .fatalWaitUnsupported ∧
    ∃ t, performSelectorOnMainThread currentThread receiver sel arg false
        = .scheduled t ∧
      t.repeats = false ∧ t.runLoop = "main" ∧ t.mode = nsDefaultRunLoopMode ∧
      t.target = receiver ∧ t.selector = "timerFireMethod:" ∧
      timerFireMethod t.target t = some ⟨receiver, sel, arg⟩ := by
  constructor
  · simp [performSelectorOnMainThread, h]
  · refine ⟨⟨receiver, "timerFireMethod:", [("SEL", .str sel), ("arg", .obj arg)],
      false, "main", nsDefaultRunLoopMode⟩, ?_, rfl, rfl, rfl, rfl, rfl, ?_⟩
    · simp [performSelectorOnMainThread, h]
    · rfl

/-- Witness for C6 at thread 1, receiver 2, selector `doStuff:`, argument 3. -/
theorem c6_perform_on_main_thread_witness :
    performSelectorOnMainThread 1 2 "doStuff:" 3 true = .fatalWaitUnsupported ∧
    ∃ t, performSelectorOnMainThread 1 2 "doStuff:" 3 false = .scheduled t ∧
      t.repeats = false ∧ t.runLoop = "main" ∧ t.mode = nsDefaultRunLoopMode ∧
      t.target = 2 ∧ t.selector = "timerFireMethod:" ∧
      timerFireMethod t.target t = some ⟨2, "doStuff:", 3⟩ :=
  c6_perform_on_main_thread 1 2 "doStuff:" 3 (by decide)

/-- C10: `performSelector:withObject:afterDelay:` and
`+cancelPreviousPerformRequestsWithTarget:` return immediately, dispatch no
message, schedule nothing, and leave the runtime state — in particular the
scheduled-timer list — exactly as it was; since no record of the request
exists in the state, the requested selector is never performed at any time. -/
theorem c10_after_delay_and_cancel_are_noops :
    ∀ (st : DeferredState) (receiver : Nat) (sel : String) (arg delay target : Nat),
      performSelectorAfterDelay st receiver sel arg delay = (st, []) ∧
      (performSelectorAfterDelay st receiver sel arg delay).1.scheduledTimers
        = st.scheduledTimers ∧
      (performSelectorAfterDelay st receiver sel arg delay).2 = [] ∧
      cancelPreviousPerformRequestsWithTarget st target = (st, []) := by
  intro st receiver sel arg delay target
  exact ⟨rfl, rfl, rfl, rfl⟩

theorem stripPre_sound : ∀ (pat s r : List Char), stripPre pat s = some r → s = pat ++ r := by
  intro pat
  induction pat with
  | nil =>
      intro s r h
      simp only [stripPre, Option.some.injEq] at h
      simp [h]
  | cons p ps ih =>
      intro s r h
      cases s with
      | nil => simp [stripPre] at h
      | cons c cs =>
          simp only [stripPre] at h
          by_cases hc : c = p
          · rw [if_pos hc] at h
            subst hc
            simp [ih cs r h]
          · rw [if_neg hc] at h
            exact absurd h (by simp)

theorem stripSuf_sound (pat s r : List Char) (h : stripSuf pat s = some r) : s = r ++ pat := by
  simp only [stripSuf, Option.map_eq_some'] at h
  obtain ⟨t, ht, hr⟩ := h
  subst hr
  have hs := stripPre_sound pat.reverse s.reverse t ht
  have h2 : s.reverse.reverse = (pat.reverse ++ t).reverse := by rw [hs]
  simpa [List.reverse_append] using h2

theorem splitOnce_sound : ∀ (pat s a b : List Char),
    splitOnce pat s = some (a, b) → s = a ++ pat ++ b := by
  intro pat s
  induction s with
  | nil =>
      intro a b h
      simp only [splitOnce, Option.map_eq_some'] at h
      obtain ⟨t, ht, hab⟩ := h
      injection hab with ha hb
      subst ha
      subst hb
      simpa using stripPre_sound pat [] t ht
  | cons c cs ih =>
      intro a b h
      simp only [splitOnce] at h
      cases hsp : stripPre pat (c :: cs) with
      | some t =>
          rw [hsp] at h
          dsimp only at h
          injection h with h1
          injection h1 with ha hb
          subst ha
          subst hb
          simpa using stripPre_sound pat (c :: cs) t hsp
      | none =>
          rw [hsp] at h
          dsimp only at h
          simp only [Option.map_eq_some'] at h
          obtain ⟨⟨x, y⟩, hxy, hab⟩ := h
          injection hab with ha hb
          subst ha
          subst hb
          have hcs := ih x y hxy
          simp [hcs]

theorem parse_tuple_sound (s a b : List Char) (h : parse_tuple s = some (a, b)) :
    floatAccepts a = true ∧ floatAccepts b = true ∧ s = a ++ (", ").data ++ b := by
  unfold parse_tuple at h
  cases hso : splitOnce ((", ").data) s with
  | none =>
      rw [hso] at h
      exact absurd h (by simp)
  | some xy =>
      obtain ⟨x, y⟩ := xy
      rw [hso] at h
      dsimp only at h
      by_cases hf : (floatAccepts x && floatAccepts y) = true
      · rw [if_pos hf] at h
        injection h with h1
        injection h1 with ha hb
        subst ha
        subst hb
        simp only [Bool.and_eq_true] at hf
        exact ⟨hf.1, hf.2, splitOnce_sound _ _ _ _ hso⟩
      · rw [if_neg hf] at h
        exact absurd h (by simp)

theorem pointFromStr_sound (s a b : List Char) (h : pointFromStr s = some (a, b)) :
    wellFormedPair s := by
  unfold pointFromStr at h
  cases h1 : stripPre [lbrace] s with
  | none => rw [h1] at h; exact absurd h (by simp)
  | some t =>
      rw [h1] at h
      dsimp only at h
      cases h2 : stripSuf [rbrace] t with
      | none => rw [h2] at h; exact absurd h (by simp)
      | some u =>
          rw [h2] at h
          dsimp only at h
          obtain ⟨hfa, hfb, hu⟩ := parse_tuple_sound u a b h
          refine ⟨a, b, hfa, hfb, ?_⟩
          rw [stripPre_sound _ _ _ h1, stripSuf_sound _ _ _ h2, hu]
          simp

theorem sizeFromStr_sound (s a b : List Char) (h : sizeFromStr s = some (a, b)) :
    wellFormedPair s := by
  unfold sizeFromStr at h
  cases h1 : stripPre [lbrace] s with
  | none => rw [h1] at h; exact absurd h (by simp)
  | some t =>
      rw [h1] at h
      dsimp only at h
      cases h2 : stripSuf [rbrace] t with
      | none => rw [h2] at h; exact absurd h (by simp)
      | some u =>
          rw [h2] at h
          dsimp only at h
          obtain ⟨hfa, hfb, hu⟩ := parse_tuple_sound u a b h
          refine ⟨a, b, hfa, hfb, ?_⟩
          rw [stripPre_sound _ _ _ h1, stripSuf_sound _ _ _ h2, hu]
          simp

theorem rectFromStr_sound (s a1 a2 b1 b2 : List Char)
    (h : rectFromStr s = some ((a1, a2), (b1, b2))) : wellFormedRect s := by
  unfold rectFromStr at h
  cases h1 : stripPre [lbrace, lbrace] s with
  | none => rw [h1] at h; exact absurd h (by simp)
  | some t =>
      rw [h1] at h
      dsimp only at h
      cases h2 : stripSuf [rbrace, rbrace] t with
      | none => rw [h2] at h; exact absurd h (by simp)
      | some u =>
          rw [h2] at h
          dsimp only at h
          cases h3 : splitOnce rectSep u with
          | none => rw [h3] at h; exact absurd h (by simp)
          | some xy =>
              obtain ⟨x, y⟩ := xy
              rw [h3] at h
              dsimp only at h
              cases h4 : parse_tuple x with
              | none => rw [h4] at h; exact absurd h (by simp)
              | some p1 =>
                  rw [h4] at h
                  cases h5 : parse_tuple y with
                  | none => rw [h5] at h; exact absurd h (by simp)
                  | some p2 =>
                      rw [h5] at h
                      dsimp only at h
                      obtain ⟨x1, x2⟩ := p1
                      obtain ⟨y1, y2⟩ := p2
                      injection h with h6
                      injection h6 with hp1 hp2
                      injection hp1 with hx1 hx2
                      injection hp2 with hy1 hy2
                      subst hx1
                      subst hx2
                      subst hy1
                      subst hy2
                      obtain ⟨hfa1, hfa2, hx⟩ := parse_tuple_sound x x1 x2 h4
                      obtain ⟨hfb1, hfb2, hy⟩ := parse_tuple_sound y y1 y2 h5
                      refine ⟨x1, x2, y1, y2, hfa1, hfa2, hfb1, hfb2, ?_⟩
                      rw [stripPre_sound _ _ _ h1, stripSuf_sound _ _ _ h2,
                        splitOnce_sound _ _ _ _ h3, hx, hy]
                      simp

/-- C5: the point, size and rectangle parsers reject every input that deviates
from the exact textual grammar — stated in the equivalent contrapositive form:
whenever a parser returns a value rather than an error, its input was exactly
an opening-brace/float/comma-space/float/closing-brace string (respectively
the doubly-nested rectangle form), with no extra or missing braces, no other
separator, no non-numeric field, and no surrounding or trailing characters. -/
theorem c5_parse_rejects_deviating_inputs :
    ∀ s : List Char,
      (∀ r, pointFromStr s = some r → wellFormedPair s) ∧
      (∀ r, sizeFromStr s = some r → wellFormedPair s) ∧
      (∀ r, rectFromStr s = some r → wellFormedRect s) := by
  intro s
  refine ⟨fun r h => ?_, fun r h => ?_, fun r h => ?_⟩
  · exact pointFromStr_sound s r.1 r.2 h
  · exact sizeFromStr_sound s r.1 r.2 h
  · exact rectFromStr_sound s r.1.1 r.1.2 r.2.1 r.2.2 h

/-- Witness for C5: concrete accepted inputs for each parser are in the
respective grammar. -/
theorem c5_parse_rejects_deviating_inputs_witness :
    wellFormedPair (("\x7b1, 2\x7d").data) ∧
    wellFormedPair (("\x7b0.5, 2e3\x7d").data) ∧
    wellFormedRect (("\x7b\x7b1, 2\x7d, \x7b3, 4\x7d\x7d").data) :=
  ⟨(c5_parse_rejects_deviating_inputs _).1 (("1").data, ("2").data) (by decide),
   (c5_parse_rejects_deviating_inputs _).2.1 (("0.5").data, ("2e3").data) (by decide),
   (c5_parse_rejects_deviating_inputs _).2.2
     ((("1").data, ("2").data), (("3").data, ("4").data)) (by decide)⟩
